import Mathlib

/-!
Verification development for an interactive image-editing front-end
(source: `src/geminiService.ts`, the image-panel component with the masking
tool, and the application component with the generation orchestrator and
history manager).

Modelling conventions:
* JavaScript strings are modelled as `List Char`; `String.prototype.includes`
  becomes substring search on character lists, `trim` drops whitespace
  characters from both ends, `toLowerCase` maps `Char.toLower`.
* JavaScript numbers are modelled as exact rationals (`ℚ`) or integers; no
  floating-point rounding is modelled.
* The 2D canvas (an external browser API) is modelled by the region of the
  raster painted by white strokes: a stroke of a polyline with round caps and
  joins at width `w` paints the union of the capsules (radius `w / 2`) around
  its consecutive segments; the initial black fill paints nothing white.
* Thrown JavaScript `Error` values are modelled by their message strings, and
  remote calls are driven by an oracle assigning each attempt its outcome.
-/

set_option maxRecDepth 8192

/-- Characters of a string literal; used to embed JavaScript string values. -/
def chars (s : String) : List Char := s.data

/-- Does `hay` start with `nee`?  Models the prefix test used by substring
search on JavaScript strings. -/
def strStartsWith : List Char → List Char → Bool
  | _, [] => true
  | [], _ :: _ => false
  | c :: t, d :: u => c = d && strStartsWith t u

/-- Substring occurrence test on character lists; models
`String.prototype.includes`. -/
def strContainsAux (hay nee : List Char) : Bool :=
  match hay with
  | [] => nee.isEmpty
  | _ :: t => strStartsWith hay nee || strContainsAux t nee

/-- `String.prototype.includes` on Lean strings. -/
def containsSub (hay nee : String) : Bool :=
  strContainsAux hay.data nee.data

/-- Models `String.prototype.toLowerCase` (basic-latin letters). -/
def jsToLower (s : List Char) : List Char := s.map Char.toLower

/-- Models `String.prototype.trim`: drop whitespace from both ends. -/
def jsTrim (s : List Char) : List Char :=
  ((s.dropWhile Char.isWhitespace).reverse.dropWhile Char.isWhitespace).reverse

/-- JavaScript truthiness of a nullable string: `null`/`undefined` and the
empty string are falsy. -/
def jsTruthyS : Option String → Bool
  | none => false
  | some s => !(s == "")

/-- JavaScript truthiness of a (non-null) string value. -/
def jsTruthyL (s : List Char) : Bool := !s.isEmpty

/- ### `src/geminiService.ts` — prompt assembly (lines 73-112) -/

/-- The three values of the `ImageSize` union type `"1K" | "2K" | "4K"`.
The spec's tier names map as: standard = `1K`, high = `2K`, ultra = `4K`. -/
inductive ImageSize where
  | oneK
  | twoK
  | fourK
deriving DecidableEq

/-- `FLUX_AESTHETIC_TOKENS` (line 13). -/
def fluxAestheticTokens : String := "hyper-realistic photography, 8k resolution, incredible details, highly detailed texture, 35mm film grain, masterpiece, sharp focus, professional lighting, cinematic color grading, depth of field, ray tracing, authentic look, unreal engine 5 render"

/-- `bgChangeKeywords` (line 92). -/
def bgChangeKeywords : List String := ["background", "world", "environment", "location", "place"]

/-- `hasBgChangeRequest` (line 93): does the lowercased prompt contain one of
the background-change keywords? -/
def hasBgChangeRequest (finalPrompt : List Char) : Bool :=
  bgChangeKeywords.any (fun kw => strContainsAux (jsToLower finalPrompt) (chars kw))

/-- The mask instruction appended when a mask image is supplied (line 86). -/
def maskNote : String := " (Note: The second image provided is a binary mask. Only edit the white areas of the mask and keep the black areas unchanged.)"

/-- The background-preservation directive (line 96). -/
def bgPreserveDirective : String := " [CRITICAL: PIXEL-PERFECT BACKGROUND PRESERVATION] You are editing the character ONLY. The background environment, furniture, lighting, and room structure must remain EXACTLY identical to the source image. Do not hallucinate new background details. Treat the background as a locked layer."

/-- The negative-prompt block appended together with the directive (line 97). -/
def bgNegativePrompt : String := " [NEGATIVE PROMPT: (changing background:1.5), new location, different room, remodeling, changing furniture, changing lighting, morphing background, distorted architecture, (bench:1.5), park bench, outdoor furniture, grass, street elements]"

/-- Structure instruction for `structureWeight < 30` (line 104). -/
def structLowText : String := " [Instruction: You may freely alter the character\x27s pose, action, and composition to fit the prompt. However, you MUST strictly preserve the background structure and perspective of the original image.]"

/-- Structure instruction for `structureWeight > 70` (line 106). -/
def structHighText : String := " [Instruction: Strictly preserve the exact structure, pose, and layout of the original source image. Do not change the camera angle or subject placement unless explicitly asked.]"

/-- Structure instruction for the balanced default (line 109). -/
def structBalancedText : String := " [Instruction: Maintain the general structure of the source image while applying the requested changes.]"

/-- Lines 74-82: trim the prompt, then for 2K/4K sizes append the aesthetic
tokens unless the prompt already mentions `hyper-realistic`. -/
def promptAfterAesthetic (prompt : List Char) (imageSize : ImageSize) : List Char :=
  if imageSize = ImageSize.twoK ∨ imageSize = ImageSize.fourK then
    if strContainsAux (jsToLower (jsTrim prompt)) (chars "hyper-realistic") then
      jsTrim prompt
    else jsTrim prompt ++ chars ", " ++ chars fluxAestheticTokens
  else jsTrim prompt

/-- Lines 85-99: append the mask note when a mask is present; otherwise append
the background-preservation directive and its negative-prompt block unless a
background-change keyword occurs in the prompt assembled so far. -/
def promptAfterMask (fp : List Char) (maskPresent : Bool) : List Char :=
  if maskPresent then fp ++ chars maskNote
  else if hasBgChangeRequest fp then fp
  else fp ++ chars bgPreserveDirective ++ chars bgNegativePrompt

/-- Lines 102-110: weight-dependent structure instruction. -/
def structureInstruction (structureWeight : ℤ) : List Char :=
  if structureWeight < 30 then chars structLowText
  else if structureWeight > 70 then chars structHighText
  else chars structBalancedText

/-- The complete `finalPrompt` sent to the model (result of lines 73-112). -/
def buildFinalPrompt (prompt : List Char) (imageSize : ImageSize)
    (maskPresent : Bool) (structureWeight : ℤ) : List Char :=
  promptAfterMask (promptAfterAesthetic prompt imageSize) maskPresent
    ++ structureInstruction structureWeight

/- ### `src/geminiService.ts` — response parsing (lines 157-175) -/

/-- One `inlineData` payload of a response part. -/
structure InlineData where
  data : String
  mimeType : String
deriving DecidableEq

/-- One content part of a response candidate: an optional text field and an
optional inline-image field. -/
structure RespPart where
  text : Option String
  inlineData : Option InlineData
deriving DecidableEq

/-- The record returned by `editImage` on success. -/
structure ParsedResult where
  imageUrl : Option String
  base64 : Option String
  mimeType : Option String
  text : Option String
deriving DecidableEq

/-- The all-`null` result. -/
def emptyParsed : ParsedResult := ⟨none, none, none, none⟩

/-- Lines 164-172: the loop body over `candidates[0].content.parts`.  A part
with truthy `text` sets the text; otherwise a part with `inlineData` sets the
image fields (later parts overwrite earlier ones). -/
def parseStep (acc : ParsedResult) (p : RespPart) : ParsedResult :=
  if jsTruthyS p.text then { acc with text := p.text }
  else
    match p.inlineData with
    | some d =>
        { acc with
          base64 := some d.data
          mimeType := some d.mimeType
          imageUrl := some ("data:" ++ d.mimeType ++ ";base64," ++ d.data) }
    | none => acc

/-- Lines 162-173: a response is a list of candidates, each a list of content
parts; only the first candidate is scanned, and an empty candidate list yields
the all-`null` result. -/
def parseResponse (cands : List (List RespPart)) : ParsedResult :=
  match cands with
  | [] => emptyParsed
  | c :: _ => c.foldl parseStep emptyParsed

/-- The image part a part contributes in the loop: `none` when the part has
truthy text (the `else if` is not reached), its `inlineData` otherwise. -/
def imgOf (p : RespPart) : Option InlineData :=
  if jsTruthyS p.text then none else p.inlineData

/-- The text a part contributes in the loop. -/
def txtOf (p : RespPart) : Option String :=
  if jsTruthyS p.text then p.text else none

/-- The last part of the list contributing an image (what the overwrite loop
keeps). -/
def lastImagePart (ps : List RespPart) : Option InlineData :=
  ps.reverse.findSome? imgOf

/-- The last truthy text in the list (what the overwrite loop keeps). -/
def lastTruthyText (ps : List RespPart) : Option String :=
  ps.reverse.findSome? txtOf

/-- Modelled from the spec: "scan all returned content segments for the first
one containing inline image data" — the first part carrying inline image data,
for comparison with what the code computes. -/
def specFirstInlineImage (ps : List RespPart) : Option InlineData :=
  ps.findSome? (fun p => p.inlineData)

/- ### `src/geminiService.ts` — retry logic (lines 143-205) -/

/-- Line 179: transient-failure classification of an error message. -/
def isTransientError (msg : String) : Bool :=
  containsSub msg "503" || containsSub msg "Deadline expired" ||
    containsSub msg "timeout" || containsSub msg "Overloaded"

/-- Line 192: credential/configuration-failure classification. -/
def isConfigError (msg : String) : Bool :=
  containsSub msg "403" || containsSub msg "API key not valid" ||
    containsSub msg "Requested entity was not found"

/-- The message thrown for credential failures (line 193). -/
def configErrorText : String := "Invalid API Key or project configuration. Please check your AI Studio settings."

/-- Lines 188-201: the error finally thrown once no retry is possible;
credential classification takes precedence, then the persistent-transient
`SERVER_BUSY` signal, then the original message.  (All thrown values are `Error`s
carrying a message.) -/
def classifyFinalError (msg : String) : String :=
  if isConfigError msg then configErrorText
  else if isTransientError msg then "SERVER_BUSY"
  else msg

/-- Outcome of one `editImage` invocation: number of remote attempts made,
the delays slept between attempts, and the returned value or thrown error. -/
structure EditOutcome where
  attemptsUsed : ℕ
  delaysMs : List ℕ
  result : Except String ParsedResult

/-- Lines 143-205: the retry loop (`maxRetries = 1`).  `o` assigns each remote
attempt (globally numbered from `k`) its response or thrown error message; a
transient first failure sleeps 2000 ms and retries exactly once. -/
def runEditImage (o : ℕ → Except String (List (List RespPart))) (k : ℕ) :
    EditOutcome :=
  match o k with
  | Except.ok resp => ⟨1, [], Except.ok (parseResponse resp)⟩
  | Except.error e1 =>
    if isTransientError e1 then
      match o (k + 1) with
      | Except.ok resp => ⟨2, [2000], Except.ok (parseResponse resp)⟩
      | Except.error e2 => ⟨2, [2000], Except.error (classifyFinalError e2)⟩
    else ⟨1, [], Except.error (classifyFinalError e1)⟩

/- ### `ImagePanel` — coordinate normalization (part_001 lines 51-98, 170-253) -/

/-- A normalized point: each axis a fraction of the rendered image. -/
structure Point where
  x : ℚ
  y : ℚ
deriving DecidableEq

/-- One recorded stroke: its normalized points and relative stroke width. -/
structure MaskPath where
  points : List Point
  strokeWidth : ℚ
deriving DecidableEq

/-- Geometry inputs of the displayed image element: native pixel dimensions,
bounding-box dimensions, and the bounding box's viewport position. -/
structure ImgBox where
  naturalWidth : ℚ
  naturalHeight : ℚ
  width : ℚ
  height : ℚ
  rectLeft : ℚ
  rectTop : ℚ
deriving DecidableEq

/-- The rendered sub-rectangle of the (letterboxed) image inside its box. -/
structure RenderRect where
  renderWidth : ℚ
  renderHeight : ℚ
  top : ℚ
  left : ℚ
deriving DecidableEq

/-- The letterboxing computation duplicated at part_001 lines 56-72, 175-191
and 221-236: preserve the native aspect, fill the axis with less slack and
center on the other. -/
def renderRect (b : ImgBox) : RenderRect :=
  if b.width / b.height > b.naturalWidth / b.naturalHeight then
    ⟨b.height * (b.naturalWidth / b.naturalHeight), b.height, 0,
      (b.width - b.height * (b.naturalWidth / b.naturalHeight)) / 2⟩
  else
    ⟨b.width, b.width / (b.naturalWidth / b.naturalHeight),
      (b.height - b.width / (b.naturalWidth / b.naturalHeight)) / 2, 0⟩

/-- `getNormalizedPoint` (lines 170-202): offset the pointer into the rendered
sub-rectangle, reject positions outside it, and normalize to `[0,1]`. -/
def getNormalizedPoint (b : ImgBox) (clientX clientY : ℚ) : Option Point :=
  if clientX - b.rectLeft - (renderRect b).left < 0 ∨
     clientX - b.rectLeft - (renderRect b).left > (renderRect b).renderWidth ∨
     clientY - b.rectTop - (renderRect b).top < 0 ∨
     clientY - b.rectTop - (renderRect b).top > (renderRect b).renderHeight
  then none
  else some
    ⟨(clientX - b.rectLeft - (renderRect b).left) / (renderRect b).renderWidth,
     (clientY - b.rectTop - (renderRect b).top) / (renderRect b).renderHeight⟩

/-- The screen position (relative to the canvas origin, which coincides with
the element box origin) at which a normalized point is drawn — the `moveTo`/
`lineTo` coordinates of `draw` (lines 244-250) and `adjustCanvas` (91-93). -/
def denormalizePoint (b : ImgBox) (p : Point) : ℚ × ℚ :=
  ((renderRect b).left + p.x * (renderRect b).renderWidth,
   (renderRect b).top + p.y * (renderRect b).renderHeight)

/- ### `ImagePanel` — stroke recorder (lines 204-264) -/

/-- The drawing-related component state. -/
structure DrawState where
  isDrawing : Bool
  currentPath : List Point
  paths : List MaskPath
deriving DecidableEq

/-- `startDrawing` (lines 204-210): on a normalized pointer-down position,
start drawing with a one-point current path; `none` leaves the state alone. -/
def startDrawing (s : DrawState) (point : Option Point) : DrawState :=
  match point with
  | some p => { s with isDrawing := true, currentPath := [p] }
  | none => s

/-- The state part of `draw` (lines 212-216): while drawing, append each
normalized pointer-move position to the current path. -/
def drawMove (s : DrawState) (point : Option Point) : DrawState :=
  if s.isDrawing then
    match point with
    | some p => { s with currentPath := s.currentPath ++ [p] }
    | none => s
  else s

/-- `stopDrawing` (lines 255-264): commit a non-empty current path (of any
length, including a single point) with relative stroke width `0.05`. -/
def stopDrawing (s : DrawState) : DrawState :=
  if s.isDrawing then
    if 0 < s.currentPath.length then
      { isDrawing := false, currentPath := [],
        paths := s.paths ++ [⟨s.currentPath, 5 / 100⟩] }
    else { s with isDrawing := false, currentPath := [] }
  else s

/- ### `ImagePanel` — mask rasterization (`exportMask`, lines 266-299) -/

/-- The capsule around segment `a`-`b` of radius `r`: the region a round-cap,
round-join stroke paints for that segment. -/
def inCapsule (a b : ℚ × ℚ) (r : ℚ) (z : ℚ × ℚ) : Prop :=
  ∃ t : ℚ, 0 ≤ t ∧ t ≤ 1 ∧
    (z.1 - (a.1 + t * (b.1 - a.1))) ^ 2 + (z.2 - (a.2 + t * (b.2 - a.2))) ^ 2
      ≤ r ^ 2

/-- The region painted by stroking the polyline through `pts` at width
`lineWidth` with round caps and joins: the union of the segment capsules. -/
def polylineStroke (pts : List (ℚ × ℚ)) (lineWidth : ℚ) : Set (ℚ × ℚ) :=
  { z | ∃ seg ∈ pts.zip pts.tail, inCapsule seg.1 seg.2 (lineWidth / 2) z }

/-- The offscreen canvas: its pixel dimensions and the region painted white
(everything else is the initial solid-black fill). -/
structure Canvas2D where
  width : ℕ
  height : ℕ
  white : Set (ℚ × ℚ)

/-- Normalized points scaled to the canvas's pixel space (lines 290-292). -/
def scalePoints (w h : ℕ) (pts : List Point) : List (ℚ × ℚ) :=
  pts.map (fun p => (p.x * w, p.y * h))

/-- Lines 287-295: stroke one path onto the canvas — skipped when it has fewer
than 2 points, otherwise drawn white at line width `canvas.width * 0.05`. -/
def strokePathOnCanvas (c : Canvas2D) (p : MaskPath) : Canvas2D :=
  if p.points.length < 2 then c
  else
    { c with
      white := c.white ∪
        polylineStroke (scalePoints c.width c.height p.points)
          ((c.width : ℚ) * (5 / 100)) }

/-- `exportMask` (lines 266-299): `null` when the path set is empty, otherwise
a raster at the image's native dimensions, filled black, with every path
stroked onto it in order. -/
def exportMask (naturalWidth naturalHeight : ℕ) (paths : List MaskPath) :
    Option Canvas2D :=
  if paths.length = 0 then none
  else some (paths.foldl strokePathOnCanvas ⟨naturalWidth, naturalHeight, ∅⟩)

/-- The white region `exportMask` produces, in closed form: the union of the
stroke regions of the paths having at least two points. -/
def maskWhiteSet (nw nh : ℕ) (paths : List MaskPath) : Set (ℚ × ℚ) :=
  { z | ∃ p ∈ paths, 2 ≤ p.points.length ∧
      z ∈ polylineStroke (scalePoints nw nh p.points) ((nw : ℚ) * (5 / 100)) }

/- ### `App` (part_002) — records, history and the generation orchestrator -/

/-- The `ImageSource` record (`src/types.ts`): displayable URL, raw payload,
MIME type, and the optional provenance fields. -/
structure ImageSourceRec where
  url : String
  base64 : String
  mimeType : String
  prompt : Option (List Char)
  timestamp : Option ℕ
  isSheet : Bool
deriving DecidableEq

/-- The application state relevant to generation and history. -/
structure AppState where
  sourceImage : Option ImageSourceRec
  currentGeneratedImage : Option ImageSourceRec
  generatedImageHistory : List ImageSourceRec
  maskImage : Option String
  appError : Option String
deriving DecidableEq

/-- Toast severities used by the orchestrator. -/
inductive ToastKind where
  | success
  | info
  | errorToast
deriving DecidableEq

/-- One remote `editImage` request, as far as the claims are concerned: input
image payload, final prompt, size tier, mask presence and structure weight.
(The style-reference and asset lists, aspect value and seed are passed through
unchanged and are not modelled.) -/
structure GenCall where
  inputBase64 : String
  inputMime : String
  prompt : List Char
  size : ImageSize
  maskPresent : Bool
  structureWeight : ℤ
deriving DecidableEq

/-- Result of one `executeGeneration` run: final state, the remote calls made
(one entry per network attempt), the toasts emitted, and the returned record. -/
structure GenRun where
  state : AppState
  remoteCalls : List GenCall
  toasts : List (String × ToastKind)
  returned : Option ImageSourceRec

/-- Line 721: overwrite the last history entry (when one exists). -/
def replaceLast (l : List ImageSourceRec) (a : ImageSourceRec) :
    List ImageSourceRec :=
  if 0 < l.length then l.dropLast ++ [a] else l

/-- The success test of line 678/708: all three image fields truthy. -/
def resultCommitted (r : ParsedResult) : Bool :=
  jsTruthyS r.imageUrl && jsTruthyS r.base64 && jsTruthyS r.mimeType

/-- The record committed for a first-tier success (lines 679-686). -/
def baseRecord (r : ParsedResult) (targetPrompt finalPrompt : List Char)
    (now : ℕ) (isSheetSel : Bool) : ImageSourceRec :=
  { url := r.imageUrl.getD "", base64 := r.base64.getD "",
    mimeType := r.mimeType.getD "",
    prompt := some (if jsTruthyL targetPrompt then targetPrompt
      else chars "[Click Generation] " ++ finalPrompt.take 30 ++ chars "..."),
    timestamp := some now, isSheet := isSheetSel }

/-- The record committed for a successful upscale pass (lines 709-716). -/
def upscaledRecord (r : ParsedResult) (targetPrompt : List Char) (now : ℕ)
    (isSheetSel : Bool) : ImageSourceRec :=
  { url := r.imageUrl.getD "", base64 := r.base64.getD "",
    mimeType := r.mimeType.getD "",
    prompt := some ((if jsTruthyL targetPrompt then targetPrompt
      else chars "[Click Generation]") ++ chars " (Upscaled)"),
    timestamp := some now, isSheet := isSheetSel }

/-- The upscale-failure notice (line 728). -/
def upscaleFailNotice : String := "4K Upscale failed due to timeout, but 1K image is saved."

/-- Lines 737-748: the outer catch maps `SERVER_BUSY`/503/deadline messages to
the localized busy text and records the error state plus an error toast. -/
def failureUpdate (st : AppState) (e : String) (serverBusyText genErrorText : String) :
    AppState × List (String × ToastKind) :=
  let msg := if e == "SERVER_BUSY" || containsSub e "503" || containsSub e "Deadline"
    then serverBusyText else e
  ({ st with appError := some msg },
    [(if msg == serverBusyText then msg else genErrorText, ToastKind.errorToast)])

/-- `executeGeneration` (part_002 lines 516-749).  The prompt composed by
lines 534-663 (which samples scenario lines randomly) and the effective
structure weight are taken as inputs `finalPrompt` and `effW`; the remote
service is the oracle `o`, globally numbering network attempts; `now` stands
for `Date.now()`; `serverBusyText`/`genErrorText` are the i18n texts (the i18n
table is outside the sources).  Preconditions, the tier cap for `4K`, the
success commit, the upscale pass and both catch handlers follow the source. -/
def executeGenerationRun (st : AppState) (hasApiKey : Bool)
    (targetPrompt : List Char) (size : ImageSize) (finalPrompt : List Char)
    (effW : ℤ) (now : ℕ) (isSheetSel : Bool)
    (serverBusyText genErrorText : String)
    (o : ℕ → Except String (List (List RespPart))) : GenRun :=
  match st.sourceImage with
  | none =>
      ⟨{ st with appError := some "Upload a source image." }, [],
        [("Please upload a source image first.", ToastKind.errorToast)], none⟩
  | some src =>
    if hasApiKey = false then
      ⟨{ st with appError := some "API Key Required" }, [],
        [("Please set your Gemini API Key in settings first.", ToastKind.errorToast)],
        none⟩
    else
      let st0 := { st with appError := none }
      let initialSize := if size = ImageSize.fourK then ImageSize.oneK else size
      let call1 : GenCall :=
        ⟨src.base64, src.mimeType, finalPrompt, initialSize,
          jsTruthyS st.maskImage, effW⟩
      let out1 := runEditImage o 0
      let calls1 := List.replicate out1.attemptsUsed call1
      match out1.result with
      | Except.error e =>
          let fu := failureUpdate st0 e serverBusyText genErrorText
          ⟨fu.1, calls1, fu.2, none⟩
      | Except.ok r =>
        if resultCommitted r then
          let newImg := baseRecord r targetPrompt finalPrompt now isSheetSel
          let st1 := { st0 with
            currentGeneratedImage := some newImg,
            generatedImageHistory := st0.generatedImageHistory ++ [newImg] }
          if size = ImageSize.fourK then
            let call2 : GenCall :=
              ⟨newImg.base64, newImg.mimeType, finalPrompt, ImageSize.fourK,
                false, 100⟩
            let out2 := runEditImage o out1.attemptsUsed
            let calls2 := List.replicate out2.attemptsUsed call2
            match out2.result with
            | Except.ok r2 =>
              if resultCommitted r2 then
                let up := upscaledRecord r2 targetPrompt now isSheetSel
                ⟨{ st1 with
                    currentGeneratedImage := some up,
                    generatedImageHistory :=
                      replaceLast st1.generatedImageHistory up },
                  calls1 ++ calls2, [], some newImg⟩
              else ⟨st1, calls1 ++ calls2, [], some newImg⟩
            | Except.error _ =>
                ⟨st1, calls1 ++ calls2,
                  [(upscaleFailNotice, ToastKind.info)], some newImg⟩
          else ⟨st1, calls1, [], some newImg⟩
        else ⟨st0, calls1, [], none⟩

/- ### `App` — history handlers -/

/-- The `onRevert` handler (part_002 line 1245): copy the history, `pop()` its
last entry, and point `current` at the popped array's new last entry (or
`null`).  It reads no guard itself. -/
def onRevert (history : List ImageSourceRec) :
    List ImageSourceRec × Option ImageSourceRec :=
  let h := history.dropLast
  (h, h.getLast?)

/-- The guard passed to the result panel (line 1246). -/
def isRevertDisabled (history : List ImageSourceRec) : Bool :=
  history.length < 2

/-- `handleDeleteResult` (line 827): clear `current` and truncate the last
history entry. -/
def handleDeleteResult (st : AppState) : AppState :=
  { st with
      currentGeneratedImage := none
      generatedImageHistory := st.generatedImageHistory.dropLast }

/-- `handleBranchFromHistory` (line 825): promote a past record to be the new
source; history itself is untouched. -/
def handleBranchFromHistory (st : AppState) (img : ImageSourceRec) : AppState :=
  { st with sourceImage := some img, maskImage := none, appError := none }

/-- The history-strip click handler (line 1393): select a past record as
`current` without mutating the log. -/
def selectFromHistory (st : AppState) (img : ImageSourceRec) : AppState :=
  { st with currentGeneratedImage := some img }

/-- `resetGeneratedState` (lines 431-435): clear `current`, the whole history
and the mask (run on source replacement). -/
def resetGeneratedState (st : AppState) : AppState :=
  { st with
      currentGeneratedImage := none
      generatedImageHistory := []
      maskImage := none }

/- ### Concrete sample values used by counterexamples and witnesses -/

/-- A sample content part carrying image payload `A`. -/
def respPartA : RespPart := ⟨none, some ⟨"A", "image/png"⟩⟩

/-- A sample content part carrying image payload `B`. -/
def respPartB : RespPart := ⟨none, some ⟨"B", "image/png"⟩⟩

/-- A sample history record. -/
def sampleRec : ImageSourceRec := ⟨"u", "b", "m", none, none, false⟩

/-- A second, distinct sample history record. -/
def sampleRec2 : ImageSourceRec := ⟨"u2", "b2", "m2", none, none, false⟩

/-- A sample source image. -/
def sampleSrc : ImageSourceRec := ⟨"srcUrl", "SRC64", "image/png", none, none, false⟩

/-- A sample successful first response. -/
def sampleResp1 : List (List RespPart) := [[⟨none, some ⟨"IMG1", "image/png"⟩⟩]]

/-- A sample successful second response. -/
def sampleResp2 : List (List RespPart) := [[⟨none, some ⟨"IMG2", "image/png"⟩⟩]]

/-- An oracle succeeding on the first two attempts. -/
def sampleOracleOk : ℕ → Except String (List (List RespPart)) :=
  fun n => if n = 0 then Except.ok sampleResp1 else Except.ok sampleResp2

/-- An oracle whose second attempt fails with a non-transient error. -/
def sampleOracleUpFail : ℕ → Except String (List (List RespPart)) :=
  fun n => if n = 0 then Except.ok sampleResp1 else Except.error "boom"

/-- The initial sample application state. -/
def sampleState : AppState := ⟨some sampleSrc, none, [], none, none⟩

/- ### Generic lemmas about substring search on lists -/

/-- `strStartsWith` decides the list-prefix relation. -/
theorem strStartsWith_iff (hay nee : List Char) :
    strStartsWith hay nee = true ↔ nee <+: hay := by
  induction hay generalizing nee with
  | nil => cases nee <;> simp [strStartsWith]
  | cons c t ih =>
    cases nee with
    | nil => simp [strStartsWith]
    | cons d u =>
      rw [show strStartsWith (c :: t) (d :: u) = (decide (c = d) && strStartsWith t u)
          from rfl]
      simp only [Bool.and_eq_true, decide_eq_true_eq, ih, List.cons_prefix_cons]
      constructor
      · rintro ⟨h1, h2⟩
        exact ⟨h1.symm, h2⟩
      · rintro ⟨h1, h2⟩
        exact ⟨h1.symm, h2⟩

/-- `strContainsAux` decides the list-substring relation. -/
theorem strContainsAux_iff (hay nee : List Char) :
    strContainsAux hay nee = true ↔ nee <:+: hay := by
  induction hay with
  | nil => simp [strContainsAux, List.infix_nil]
  | cons c t ih =>
    simp only [strContainsAux, Bool.or_eq_true, ih, strStartsWith_iff]
    exact (List.infix_cons_iff).symm

/-- A prefix of a concatenation is a prefix of the first part or extends it. -/
theorem pre_append_split {α : Type} (kw x y : List α) (h : kw <+: x ++ y) :
    kw <+: x ∨ ∃ k2, kw = x ++ k2 ∧ k2 <+: y := by
  induction x generalizing kw with
  | nil => exact Or.inr ⟨kw, rfl, by simpa using h⟩
  | cons a t ih =>
    cases kw with
    | nil => exact Or.inl (by simp)
    | cons b u =>
      rw [List.cons_append, List.cons_prefix_cons] at h
      obtain ⟨rfl, hu⟩ := h
      rcases ih u hu with h1 | ⟨k2, rfl, hk2⟩
      · exact Or.inl (by rw [List.cons_prefix_cons]; exact ⟨rfl, h1⟩)
      · exact Or.inr ⟨k2, by simp, hk2⟩

/-- A substring of a concatenation lies in one part or spans the boundary. -/
theorem sub_append_split {α : Type} (kw x y : List α) (h : kw <:+: x ++ y) :
    kw <:+: x ∨ kw <:+: y ∨
      ∃ k1 k2, kw = k1 ++ k2 ∧ k1 ≠ [] ∧ k2 ≠ [] ∧ k1 <:+ x ∧ k2 <+: y := by
  induction x with
  | nil => exact Or.inr (Or.inl (by simpa using h))
  | cons a t ih =>
    rw [List.cons_append, List.infix_cons_iff] at h
    rcases h with hpre | hsub
    · rcases pre_append_split kw (a :: t) y (by simpa using hpre) with
        h1 | ⟨k2, rfl, hk2⟩
      · exact Or.inl h1.isInfix
      · by_cases hnil : k2 = []
        · subst hnil
          exact Or.inl (by simp [List.infix_rfl])
        · exact Or.inr (Or.inr
            ⟨a :: t, k2, rfl, by simp, hnil, List.suffix_rfl, hk2⟩)
    · rcases ih hsub with h1 | h2 | ⟨k1, k2, rfl, hn1, hn2, hs, hp⟩
      · exact Or.inl (h1.trans (List.suffix_cons a t).isInfix)
      · exact Or.inr (Or.inl h2)
      · exact Or.inr (Or.inr
          ⟨k1, k2, rfl, hn1, hn2, hs.trans (List.suffix_cons a t), hp⟩)

/-- When the second part's head letter does not occur in `kw` and `kw` is not
a substring of the second part, substring search distributes to the first
part. -/
theorem sub_append_head {α : Type} (kw x y : List α) (a : α)
    (hy : ¬ kw <:+: y) (hhead : y.head? = some a) (ha : a ∉ kw) :
    kw <:+: x ++ y ↔ kw <:+: x := by
  constructor
  · intro h
    rcases sub_append_split kw x y h with h1 | h2 | ⟨k1, k2, rfl, _, hn2, _, hp⟩
    · exact h1
    · exact absurd h2 hy
    · exfalso
      cases k2 with
      | nil => exact hn2 rfl
      | cons b u =>
        obtain ⟨t, ht⟩ := hp
        rw [← ht] at hhead
        simp at hhead
        rcases hhead with rfl
        exact ha (List.mem_append_right k1 (List.mem_cons_self b u))
  · intro h
    exact h.trans (List.prefix_append x y).isInfix

/-- Substring relations transfer through `reverse`. -/
theorem sub_reverse_iff {α : Type} (kw l : List α) :
    kw <:+: l.reverse ↔ kw.reverse <:+: l := by
  constructor
  · rintro ⟨s, t, h⟩
    refine ⟨t.reverse, s.reverse, ?_⟩
    have h2 := congrArg List.reverse h
    simpa [List.append_assoc] using h2
  · rintro ⟨s, t, h⟩
    refine ⟨t.reverse, s.reverse, ?_⟩
    have h2 := congrArg List.reverse h
    simpa [List.append_assoc] using h2

/-- Dropping a leading run of elements whose image avoids `kw` does not change
whether `kw` occurs in the mapped list. -/
theorem sub_map_dropWhile {α β : Type} (kw : List β) (f : α → β) (q : α → Bool)
    (l : List α) (hne : kw ≠ []) (hf : ∀ a, q a = true → f a ∉ kw) :
    kw <:+: (l.dropWhile q).map f ↔ kw <:+: l.map f := by
  constructor
  · intro h
    exact h.trans (List.IsSuffix.map f (List.dropWhile_suffix q)).isInfix
  · intro h
    rw [← List.takeWhile_append_dropWhile q l, List.map_append] at h
    rcases sub_append_split kw _ _ h with h1 | h2 | ⟨k1, k2, rfl, hn1, _, hs, _⟩
    · exfalso
      obtain ⟨c, hc⟩ := List.exists_mem_of_ne_nil kw hne
      have hmem : c ∈ (l.takeWhile q).map f := h1.subset hc
      obtain ⟨a, ha, rfl⟩ := List.mem_map.mp hmem
      exact hf a (by simpa using List.mem_takeWhile_imp ha) hc
    · exact h2
    · exfalso
      obtain ⟨c, hc⟩ := List.exists_mem_of_ne_nil k1 hn1
      have hmem : c ∈ (l.takeWhile q).map f := hs.subset hc
      obtain ⟨a, ha, rfl⟩ := List.mem_map.mp hmem
      exact hf a (by simpa using List.mem_takeWhile_imp ha)
        (List.mem_append_left k2 hc)

/-- JavaScript `trim` does not change whether a nonempty keyword free of
(lowercased) whitespace letters occurs in the lowercased string. -/
theorem sub_jsTrim_lower (kw p : List Char) (hne : kw ≠ [])
    (hws : ∀ c : Char, c.isWhitespace = true → Char.toLower c ∉ kw) :
    kw <:+: jsToLower (jsTrim p) ↔ kw <:+: jsToLower p := by
  have hne' : kw.reverse ≠ [] := by simpa using hne
  have hws' : ∀ c : Char, c.isWhitespace = true → Char.toLower c ∉ kw.reverse := by
    intro c hc
    simpa using hws c hc
  have e1 : jsToLower (jsTrim p)
      = ((((p.dropWhile Char.isWhitespace).reverse.dropWhile
            Char.isWhitespace)).map Char.toLower).reverse :=
    List.map_reverse _ _
  have e2 : ((p.dropWhile Char.isWhitespace).reverse).map Char.toLower
      = ((p.dropWhile Char.isWhitespace).map Char.toLower).reverse :=
    List.map_reverse _ _
  rw [e1, sub_reverse_iff,
    sub_map_dropWhile kw.reverse Char.toLower Char.isWhitespace _ hne' hws',
    e2, sub_reverse_iff, List.reverse_reverse,
    sub_map_dropWhile kw Char.toLower Char.isWhitespace p hne hws]
  rfl

/- ### Keyword detection is a property of the free text (claim C6) -/

/-- `hasBgChangeRequest` in terms of keyword occurrence. -/
theorem hasBg_iff (fp : List Char) :
    hasBgChangeRequest fp = true ↔
      ∃ kw ∈ bgChangeKeywords, chars kw <:+: jsToLower fp := by
  simp [hasBgChangeRequest, List.any_eq_true, strContainsAux_iff]

/-- Keyword occurrence is unchanged by the trim/aesthetic-token steps, for a
keyword with no comma and no (lowercased-)whitespace letters that does not
occur in the token list. -/
theorem kw_stable (kw : List Char) (hne : kw ≠ [])
    (hws : ∀ c : Char, c.isWhitespace = true → Char.toLower c ∉ kw)
    (hcomma : (',' : Char) ∉ kw)
    (hflux : ¬ kw <:+: jsToLower (chars ", " ++ chars fluxAestheticTokens))
    (p : List Char) (sz : ImageSize) :
    kw <:+: jsToLower (promptAfterAesthetic p sz) ↔ kw <:+: jsToLower p := by
  have htrim := sub_jsTrim_lower kw p hne hws
  unfold promptAfterAesthetic
  split
  · split
    · exact htrim
    · have e3 : jsToLower (jsTrim p ++ chars ", " ++ chars fluxAestheticTokens)
          = jsToLower (jsTrim p)
            ++ jsToLower (chars ", " ++ chars fluxAestheticTokens) := by
        simp only [jsToLower, List.append_assoc, List.map_append]
      rw [e3, sub_append_head kw _ _ ',' hflux (by decide) hcomma]
      exact htrim
  · exact htrim

/-- The code's keyword check, run on the trimmed and possibly token-extended
prompt, agrees with keyword occurrence in the raw free text. -/
theorem hasBg_pa_iff (p : List Char) (sz : ImageSize) :
    hasBgChangeRequest (promptAfterAesthetic p sz) = true ↔
      ∃ kw ∈ bgChangeKeywords, chars kw <:+: jsToLower p := by
  rw [hasBg_iff]
  have hstable : ∀ kw ∈ bgChangeKeywords,
      (chars kw <:+: jsToLower (promptAfterAesthetic p sz) ↔
        chars kw <:+: jsToLower p) := by
    intro kw hkw
    have hmem := hkw
    simp [bgChangeKeywords] at hmem
    have hwsall : ∀ (kws : List Char), kws = chars "background" ∨
        kws = chars "world" ∨ kws = chars "environment" ∨
        kws = chars "location" ∨ kws = chars "place" →
        ∀ c : Char, c.isWhitespace = true → Char.toLower c ∉ kws := by
      intro kws hk c hc
      simp only [Char.isWhitespace, Bool.or_eq_true, decide_eq_true_eq] at hc
      rcases hk with rfl | rfl | rfl | rfl | rfl <;>
        rcases hc with ((rfl | rfl) | rfl) | rfl <;> decide
    rcases hmem with rfl | rfl | rfl | rfl | rfl
    · refine kw_stable _ (by decide) (hwsall _ (by simp)) (by decide) ?_ p sz
      intro h
      have hx := (strContainsAux_iff _ _).mpr h
      revert hx
      decide
    · refine kw_stable _ (by decide) (hwsall _ (by simp)) (by decide) ?_ p sz
      intro h
      have hx := (strContainsAux_iff _ _).mpr h
      revert hx
      decide
    · refine kw_stable _ (by decide) (hwsall _ (by simp)) (by decide) ?_ p sz
      intro h
      have hx := (strContainsAux_iff _ _).mpr h
      revert hx
      decide
    · refine kw_stable _ (by decide) (hwsall _ (by simp)) (by decide) ?_ p sz
      intro h
      have hx := (strContainsAux_iff _ _).mpr h
      revert hx
      decide
    · refine kw_stable _ (by decide) (hwsall _ (by simp)) (by decide) ?_ p sz
      intro h
      have hx := (strContainsAux_iff _ _).mpr h
      revert hx
      decide
  constructor
  · rintro ⟨kw, hkw, h⟩
    exact ⟨kw, hkw, (hstable kw hkw).mp h⟩
  · rintro ⟨kw, hkw, h⟩
    exact ⟨kw, hkw, (hstable kw hkw).mpr h⟩

/-- C6 (amended): with no mask, the background-preservation directive (and its
companion negative-prompt block — they are appended together) is appended to
the final prompt if and only if the free-text instruction contains none of the
background/scene-change keywords (case-insensitive substring match). -/
theorem editImage_bgDirective_iff (p : List Char) (sz : ImageSize) (w : ℤ) :
    buildFinalPrompt p sz false w
        = promptAfterAesthetic p sz ++ chars bgPreserveDirective
            ++ chars bgNegativePrompt ++ structureInstruction w
      ↔ ∀ kw ∈ bgChangeKeywords, ¬ chars kw <:+: jsToLower p := by
  by_cases hbg : hasBgChangeRequest (promptAfterAesthetic p sz) = true
  · apply iff_of_false
    · intro heq
      rw [show buildFinalPrompt p sz false w
            = promptAfterAesthetic p sz ++ structureInstruction w from by
          simp [buildFinalPrompt, promptAfterMask, hbg]] at heq
      have hlen := congrArg List.length heq
      simp only [List.length_append] at hlen
      have hD : 0 < (chars bgPreserveDirective).length := by decide
      omega
    · intro hall
      obtain ⟨kw, hkw, hsub⟩ := (hasBg_pa_iff p sz).mp hbg
      exact hall kw hkw hsub
  · have hbg' : hasBgChangeRequest (promptAfterAesthetic p sz) = false := by
      revert hbg
      cases hasBgChangeRequest (promptAfterAesthetic p sz) <;> simp
    apply iff_of_true
    · simp [buildFinalPrompt, promptAfterMask, hbg']
    · intro kw hkw hsub
      have hx : hasBgChangeRequest (promptAfterAesthetic p sz) = true :=
        (hasBg_pa_iff p sz).mpr ⟨kw, hkw, hsub⟩
      rw [hx] at hbg'
      cases hbg'

/-- C6 counterexample: for free text `"change the background to a beach"` with
no mask, the suppressed branch omits not only the background-preservation
directive but also the negative-prompt block — the final service-level prompt
contains no `[NEGATIVE PROMPT` text at all (contrary to the claim that the
negative-prompt block is still present). -/
theorem bgScenario_negativeBlock_absent :
    hasBgChangeRequest
        (promptAfterAesthetic (chars "change the background to a beach")
          ImageSize.oneK) = true
    ∧ strContainsAux
        (buildFinalPrompt (chars "change the background to a beach")
          ImageSize.oneK false 50)
        (chars "[NEGATIVE PROMPT") = false
    ∧ strContainsAux
        (buildFinalPrompt (chars "change the background to a beach")
          ImageSize.oneK false 50)
        (chars "BACKGROUND PRESERVATION") = false := by
  refine ⟨by decide, by decide, by decide⟩

/- ### Response parsing: the overwrite loop keeps the LAST image (claim C5) -/

/-- One step of the parse loop, `base64` field. -/
theorem parseStep_base64 (acc : ParsedResult) (p : RespPart) :
    (parseStep acc p).base64 = ((imgOf p).map InlineData.data).or acc.base64 := by
  simp only [parseStep, imgOf]
  by_cases ht : jsTruthyS p.text = true
  · simp [ht]
  · simp only [ht, if_false, Bool.false_eq_true]
    cases p.inlineData <;> simp

/-- One step of the parse loop, `mimeType` field. -/
theorem parseStep_mime (acc : ParsedResult) (p : RespPart) :
    (parseStep acc p).mimeType = ((imgOf p).map InlineData.mimeType).or acc.mimeType := by
  simp only [parseStep, imgOf]
  by_cases ht : jsTruthyS p.text = true
  · simp [ht]
  · simp only [ht, if_false, Bool.false_eq_true]
    cases p.inlineData <;> simp

/-- One step of the parse loop, `imageUrl` field. -/
theorem parseStep_url (acc : ParsedResult) (p : RespPart) :
    (parseStep acc p).imageUrl
      = ((imgOf p).map
          (fun d => "data:" ++ d.mimeType ++ ";base64," ++ d.data)).or acc.imageUrl := by
  simp only [parseStep, imgOf]
  by_cases ht : jsTruthyS p.text = true
  · simp [ht]
  · simp only [ht, if_false, Bool.false_eq_true]
    cases p.inlineData <;> simp

/-- One step of the parse loop, `text` field. -/
theorem parseStep_text (acc : ParsedResult) (p : RespPart) :
    (parseStep acc p).text = (txtOf p).or acc.text := by
  simp only [parseStep, txtOf]
  by_cases ht : jsTruthyS p.text = true
  · cases hp : p.text with
    | none => rw [hp] at ht; exact absurd ht (by simp [jsTruthyS])
    | some s =>
      rw [hp] at ht
      simp [ht]
  · simp only [ht, if_false, Bool.false_eq_true]
    cases p.inlineData <;> simp

/-- The image kept by the last-match search on a cons. -/
theorem lastImagePart_cons (p : RespPart) (t : List RespPart) :
    lastImagePart (p :: t) = (lastImagePart t).or (imgOf p) := by
  simp only [lastImagePart, List.reverse_cons, List.findSome?_append]
  have h1 : List.findSome? imgOf [p] = imgOf p := by
    cases h : imgOf p <;> simp [List.findSome?, h]
  rw [h1]

/-- The text kept by the last-match search on a cons. -/
theorem lastTruthyText_cons (p : RespPart) (t : List RespPart) :
    lastTruthyText (p :: t) = (lastTruthyText t).or (txtOf p) := by
  simp only [lastTruthyText, List.reverse_cons, List.findSome?_append]
  have h1 : List.findSome? txtOf [p] = txtOf p := by
    cases h : txtOf p <;> simp [List.findSome?, h]
  rw [h1]

/-- Characterization of the parse fold: each field ends up holding the last
contribution, or the accumulator value when no part contributes one. -/
theorem parse_foldl (ps : List RespPart) (acc : ParsedResult) :
    (ps.foldl parseStep acc).base64
        = ((lastImagePart ps).map InlineData.data).or acc.base64
    ∧ (ps.foldl parseStep acc).mimeType
        = ((lastImagePart ps).map InlineData.mimeType).or acc.mimeType
    ∧ (ps.foldl parseStep acc).imageUrl
        = ((lastImagePart ps).map
            (fun d => "data:" ++ d.mimeType ++ ";base64," ++ d.data)).or acc.imageUrl
    ∧ (ps.foldl parseStep acc).text = (lastTruthyText ps).or acc.text := by
  induction ps generalizing acc with
  | nil => simp [lastImagePart, lastTruthyText]
  | cons p t ih =>
    obtain ⟨ih1, ih2, ih3, ih4⟩ := ih (parseStep acc p)
    rw [List.foldl_cons]
    refine ⟨?_, ?_, ?_, ?_⟩
    · rw [ih1, lastImagePart_cons, parseStep_base64]
      cases lastImagePart t <;> simp
    · rw [ih2, lastImagePart_cons, parseStep_mime]
      cases lastImagePart t <;> simp
    · rw [ih3, lastImagePart_cons, parseStep_url]
      cases lastImagePart t <;> simp
    · rw [ih4, lastTruthyText_cons, parseStep_text]
      cases lastTruthyText t <;> simp

/-- C5 (amended): the service keeps the LAST content segment carrying inline
image data (among segments without truthy text; the loop's `else if` never
reads the image of a segment that also carries text), captures the last truthy
text separately, treats an empty candidate list as the all-`null` result, and
a response with neither image nor text yields the empty result — returned via
`Except.ok`, not raised as an error. -/
theorem parseResponse_lastImage (cands : List (List RespPart)) :
    (cands = [] → parseResponse cands = emptyParsed)
    ∧ (∀ ps rest, cands = ps :: rest →
        (parseResponse cands).base64
            = (lastImagePart ps).map InlineData.data
        ∧ (parseResponse cands).mimeType
            = (lastImagePart ps).map InlineData.mimeType
        ∧ (parseResponse cands).text = lastTruthyText ps
        ∧ (lastImagePart ps = none → lastTruthyText ps = none →
            parseResponse cands = emptyParsed))
    ∧ (∀ (o : ℕ → Except String (List (List RespPart))) (k : ℕ),
        o k = Except.ok cands →
          (runEditImage o k).result = Except.ok (parseResponse cands)) := by
  refine ⟨?_, ?_, ?_⟩
  · intro h
    rw [h]
    rfl
  · intro ps rest hc
    subst hc
    obtain ⟨h1, h2, h3, h4⟩ := parse_foldl ps emptyParsed
    have hpr : parseResponse (ps :: rest) = ps.foldl parseStep emptyParsed := rfl
    refine ⟨?_, ?_, ?_, ?_⟩
    · rw [hpr, h1]
      cases lastImagePart ps <;> simp [emptyParsed]
    · rw [hpr, h2]
      cases lastImagePart ps <;> simp [emptyParsed]
    · rw [hpr, h4]
      cases lastTruthyText ps <;> simp [emptyParsed]
    · intro himg htxt
      rw [hpr]
      have : (ps.foldl parseStep emptyParsed) = emptyParsed := by
        have hu : (ps.foldl parseStep emptyParsed).imageUrl = none := by
          rw [h3, himg]
          rfl
        have hb : (ps.foldl parseStep emptyParsed).base64 = none := by
          rw [h1, himg]
          rfl
        have hm : (ps.foldl parseStep emptyParsed).mimeType = none := by
          rw [h2, himg]
          rfl
        have hx : (ps.foldl parseStep emptyParsed).text = none := by
          rw [h4, htxt]
          rfl
        cases hfold : ps.foldl parseStep emptyParsed
        rw [hfold] at hu hb hm hx
        simp only at hu hb hm hx
        rw [hu, hb, hm, hx]
        rfl
      exact this
  · intro o k hok
    rw [show runEditImage o k = ⟨1, [], Except.ok (parseResponse cands)⟩ from by
      rw [runEditImage, hok]]

/-- C5 counterexample: a response whose first candidate carries two image
segments.  The code returns the inline data of the LAST image segment (`"B"`),
not of the first one (`"A"`), refuting the claim that the first image segment
is the result image. -/
theorem parseResponse_not_firstImage :
    (parseResponse [[respPartA, respPartB]]).base64 = some "B"
    ∧ (specFirstInlineImage [respPartA, respPartB]).map InlineData.data = some "A"
    ∧ (parseResponse [[respPartA, respPartB]]).base64
        ≠ (specFirstInlineImage [respPartA, respPartB]).map InlineData.data := by
  refine ⟨by decide, by decide, by decide⟩

/- ### Retry policy of `editImage` (claim C4) -/

/-- C4 (amended): a first-attempt success makes exactly one remote call; a
transiently-classified first failure is retried exactly once after a fixed
2000 ms delay, returning the retry's success when it succeeds; when both
attempts fail transiently the distinct `SERVER_BUSY` condition is surfaced,
unless the final message also matches the credential-error patterns, which
take precedence; a non-transient first failure is surfaced immediately with a
single attempt and no delay. -/
theorem editImage_retry_policy
    (o : ℕ → Except String (List (List RespPart))) (k : ℕ) :
    (∀ r, o k = Except.ok r →
        runEditImage o k = ⟨1, [], Except.ok (parseResponse r)⟩)
    ∧ (∀ e, o k = Except.error e → isTransientError e = false →
        runEditImage o k = ⟨1, [], Except.error (classifyFinalError e)⟩)
    ∧ (∀ e r, o k = Except.error e → isTransientError e = true →
        o (k + 1) = Except.ok r →
          runEditImage o k = ⟨2, [2000], Except.ok (parseResponse r)⟩)
    ∧ (∀ e e2, o k = Except.error e → isTransientError e = true →
        o (k + 1) = Except.error e2 → isTransientError e2 = true →
        isConfigError e2 = false →
          runEditImage o k = ⟨2, [2000], Except.error "SERVER_BUSY"⟩) := by
  refine ⟨?_, ?_, ?_, ?_⟩
  · intro r h
    rw [runEditImage, h]
  · intro e h ht
    simp [runEditImage, h, ht]
  · intro e r h ht h2
    simp [runEditImage, h, ht, h2]
  · intro e e2 h ht h2 ht2 hc2
    simp [runEditImage, h, ht, h2, classifyFinalError, ht2, hc2]

/-- Witness for the retry policy: with every attempt failing as `"timeout"`,
the run makes two attempts, sleeps 2000 ms once, and surfaces `SERVER_BUSY`. -/
theorem editImage_retry_policy_witness :
    isTransientError "timeout" = true
    ∧ isConfigError "timeout" = false
    ∧ runEditImage (fun _ => Except.error "timeout") 0
        = ⟨2, [2000], Except.error "SERVER_BUSY"⟩ := by
  refine ⟨by decide, by decide, ?_⟩
  exact (editImage_retry_policy (fun _ => Except.error "timeout") 0).2.2.2
    "timeout" "timeout" rfl (by decide) rfl (by decide) (by decide)

/-- C4 counterexample: the message `"403 timeout"` is classified transient (it
mentions `timeout`), so both attempts fail transiently — yet the surfaced
error is the credential message, not `SERVER_BUSY`, because the credential
check takes precedence in the final classification. -/
theorem editImage_bothTransient_configOverride :
    isTransientError "403 timeout" = true
    ∧ (runEditImage (fun _ => Except.error "403 timeout") 0).attemptsUsed = 2
    ∧ (runEditImage (fun _ => Except.error "403 timeout") 0).result
        = Except.error configErrorText
    ∧ configErrorText ≠ "SERVER_BUSY" := by
  refine ⟨by decide, by decide, ?_, by decide⟩
  rw [show runEditImage (fun _ => Except.error "403 timeout") 0
      = ⟨2, [2000], Except.error (classifyFinalError "403 timeout")⟩ from by
    rw [runEditImage]
    simp [isTransientError, containsSub]
    decide]
  rw [show classifyFinalError "403 timeout" = configErrorText from by decide]

/- ### Coordinate normalization round-trip (claim C2) -/

/-- Under positive native and box dimensions, the rendered sub-rectangle has
positive extent on both axes. -/
theorem renderRect_pos (b : ImgBox) (hnw : 0 < b.naturalWidth)
    (hnh : 0 < b.naturalHeight) (hw : 0 < b.width) (hh : 0 < b.height) :
    0 < (renderRect b).renderWidth ∧ 0 < (renderRect b).renderHeight := by
  unfold renderRect
  split
  · exact ⟨mul_pos hh (div_pos hnw hnh), hh⟩
  · exact ⟨hw, div_pos hw (div_pos hnw hnh)⟩

/-- C2: for positive dimensions, a pointer position inside the rendered
sub-rectangle normalizes to a point of `[0,1]²` and denormalizing it with the
same inputs recovers the on-screen position (relative to the element box)
exactly; a pointer position outside the sub-rectangle yields no point. -/
theorem getNormalizedPoint_roundtrip (b : ImgBox)
    (hnw : 0 < b.naturalWidth) (hnh : 0 < b.naturalHeight)
    (hw : 0 < b.width) (hh : 0 < b.height) (clientX clientY : ℚ) :
    (0 ≤ clientX - b.rectLeft - (renderRect b).left →
     clientX - b.rectLeft - (renderRect b).left ≤ (renderRect b).renderWidth →
     0 ≤ clientY - b.rectTop - (renderRect b).top →
     clientY - b.rectTop - (renderRect b).top ≤ (renderRect b).renderHeight →
      getNormalizedPoint b clientX clientY
        = some
            ⟨(clientX - b.rectLeft - (renderRect b).left) / (renderRect b).renderWidth,
             (clientY - b.rectTop - (renderRect b).top) / (renderRect b).renderHeight⟩
      ∧ denormalizePoint b
          ⟨(clientX - b.rectLeft - (renderRect b).left) / (renderRect b).renderWidth,
           (clientY - b.rectTop - (renderRect b).top) / (renderRect b).renderHeight⟩
          = (clientX - b.rectLeft, clientY - b.rectTop)
      ∧ 0 ≤ (clientX - b.rectLeft - (renderRect b).left) / (renderRect b).renderWidth
      ∧ (clientX - b.rectLeft - (renderRect b).left) / (renderRect b).renderWidth ≤ 1
      ∧ 0 ≤ (clientY - b.rectTop - (renderRect b).top) / (renderRect b).renderHeight
      ∧ (clientY - b.rectTop - (renderRect b).top) / (renderRect b).renderHeight ≤ 1)
    ∧ ((clientX - b.rectLeft - (renderRect b).left < 0 ∨
        clientX - b.rectLeft - (renderRect b).left > (renderRect b).renderWidth ∨
        clientY - b.rectTop - (renderRect b).top < 0 ∨
        clientY - b.rectTop - (renderRect b).top > (renderRect b).renderHeight) →
        getNormalizedPoint b clientX clientY = none) := by
  obtain ⟨hrw, hrh⟩ := renderRect_pos b hnw hnh hw hh
  constructor
  · intro h1 h2 h3 h4
    have hcond : ¬ (clientX - b.rectLeft - (renderRect b).left < 0 ∨
        clientX - b.rectLeft - (renderRect b).left > (renderRect b).renderWidth ∨
        clientY - b.rectTop - (renderRect b).top < 0 ∨
        clientY - b.rectTop - (renderRect b).top > (renderRect b).renderHeight) := by
      push_neg
      exact ⟨h1, h2, h3, h4⟩
    refine ⟨?_, ?_, ?_, ?_, ?_, ?_⟩
    · unfold getNormalizedPoint
      rw [if_neg hcond]
    · unfold denormalizePoint
      have ex : (renderRect b).left +
          (clientX - b.rectLeft - (renderRect b).left) / (renderRect b).renderWidth
            * (renderRect b).renderWidth = clientX - b.rectLeft := by
        rw [div_mul_cancel₀ _ (ne_of_gt hrw)]
        ring
      have ey : (renderRect b).top +
          (clientY - b.rectTop - (renderRect b).top) / (renderRect b).renderHeight
            * (renderRect b).renderHeight = clientY - b.rectTop := by
        rw [div_mul_cancel₀ _ (ne_of_gt hrh)]
        ring
      rw [Prod.mk.injEq]
      exact ⟨ex, ey⟩
    · exact div_nonneg h1 (le_of_lt hrw)
    · exact (div_le_one hrw).mpr h2
    · exact div_nonneg h3 (le_of_lt hrh)
    · exact (div_le_one hrh).mpr h4
  · intro h
    unfold getNormalizedPoint
    rw [if_pos h]

/-- Witness for the round-trip: a 2:1 image in a square 4x4 box at the
viewport origin is letterboxed to the 4x2 strip starting at height 1; the
pointer at `(1, 2)` is inside, normalizes to `(1/4, 1/2)`, and denormalizes
back to `(1, 2)`. -/
theorem getNormalizedPoint_roundtrip_witness :
    (0 < (2 : ℚ) ∧ 0 < (1 : ℚ) ∧ 0 < (4 : ℚ) ∧ 0 < (4 : ℚ))
    ∧ getNormalizedPoint ⟨2, 1, 4, 4, 0, 0⟩ 1 2 = some ⟨1 / 4, 1 / 2⟩
    ∧ denormalizePoint ⟨2, 1, 4, 4, 0, 0⟩ ⟨1 / 4, 1 / 2⟩ = (1, 2) := by
  have h := (getNormalizedPoint_roundtrip ⟨2, 1, 4, 4, 0, 0⟩ (by norm_num)
    (by norm_num) (by norm_num) (by norm_num) 1 2).1
  have hrr : renderRect ⟨2, 1, 4, 4, 0, 0⟩ = ⟨4, 2, 1, 0⟩ := by
    unfold renderRect
    norm_num
  rw [hrr] at h
  obtain ⟨ha, hb, -⟩ := h (by norm_num) (by norm_num) (by norm_num) (by norm_num)
  refine ⟨⟨by norm_num, by norm_num, by norm_num, by norm_num⟩, ?_, ?_⟩
  · rw [ha]
    norm_num
  · have hb' := hb
    norm_num at hb' ⊢
    exact hb'

/- ### Mask rasterization (claims C1 and C10) -/

/-- Folding the stroke step over the paths paints exactly the union of the
stroke regions of the paths with at least two points; dimensions are kept. -/
theorem foldl_stroke (paths : List MaskPath) (c : Canvas2D) :
    paths.foldl strokePathOnCanvas c
      = ⟨c.width, c.height, c.white ∪ maskWhiteSet c.width c.height paths⟩ := by
  induction paths generalizing c with
  | nil =>
    have hempty : maskWhiteSet c.width c.height [] = ∅ := by
      ext z
      simp [maskWhiteSet]
    rw [List.foldl_nil, hempty, Set.union_empty]
  | cons p t ih =>
    rw [List.foldl_cons, ih]
    by_cases h2 : p.points.length < 2
    · have hskip : strokePathOnCanvas c p = c := by
        unfold strokePathOnCanvas
        rw [if_pos h2]
      rw [hskip]
      congr 1
      ext z
      simp only [maskWhiteSet, Set.mem_union, Set.mem_setOf_eq, List.mem_cons]
      constructor
      · rintro (hz | ⟨q, hq, hl, hi⟩)
        · exact Or.inl hz
        · exact Or.inr ⟨q, Or.inr hq, hl, hi⟩
      · rintro (hz | ⟨q, rfl | hq, hl, hi⟩)
        · exact Or.inl hz
        · exact absurd hl (by omega)
        · exact Or.inr ⟨q, hq, hl, hi⟩
    · have hstroke : strokePathOnCanvas c p
          = ⟨c.width, c.height,
              c.white ∪ polylineStroke (scalePoints c.width c.height p.points)
                ((c.width : ℚ) * (5 / 100))⟩ := by
        unfold strokePathOnCanvas
        rw [if_neg h2]
      rw [hstroke]
      congr 1
      ext z
      simp only [maskWhiteSet, Set.mem_union, Set.mem_setOf_eq, List.mem_cons]
      constructor
      · rintro ((hz | hp) | ⟨q, hq, hl, hi⟩)
        · exact Or.inl hz
        · exact Or.inr ⟨p, Or.inl rfl, by omega, hp⟩
        · exact Or.inr ⟨q, Or.inr hq, hl, hi⟩
      · rintro (hz | ⟨q, rfl | hq, hl, hi⟩)
        · exact Or.inl (Or.inl hz)
        · exact Or.inl (Or.inr hi)
        · exact Or.inr ⟨q, hq, hl, hi⟩

/-- C1: for a non-empty path set, the exported mask is a raster at the native
width/height whose white region is exactly the union of the white polyline
strokes (round caps/joins, line width 5% of the raster width, the rest of the
raster being the initial black fill) over the paths with at least two points —
paths with fewer than two points contribute nothing; for an empty path set the
export is `none`, never an all-black raster. -/
theorem exportMask_spec (nw nh : ℕ) (paths : List MaskPath) :
    exportMask nw nh paths
      = if paths.length = 0 then none
        else some ⟨nw, nh, maskWhiteSet nw nh paths⟩ := by
  unfold exportMask
  split
  · rfl
  · rw [foldl_stroke]
    dsimp only
    rw [Set.empty_union]

/-- C10: a pointer-down inside the image immediately followed by pointer-up
records a one-point path; the path set becomes non-empty, so `exportMask`
emits a raster (not `none`) whose white region is empty — an all-black mask —
and the service call then takes the mask-present branch of the prompt
builder. -/
theorem singlePointStroke_emitsMask (nw nh : ℕ) (b : ImgBox) (cx cy : ℚ)
    (s : DrawState) (p : Point) (hpaths : s.paths = [])
    (hpt : getNormalizedPoint b cx cy = some p) :
    (stopDrawing (startDrawing s (getNormalizedPoint b cx cy))).paths
        = [⟨[p], 5 / 100⟩]
    ∧ exportMask nw nh
        (stopDrawing (startDrawing s (getNormalizedPoint b cx cy))).paths
        = some ⟨nw, nh, ∅⟩
    ∧ (exportMask nw nh
        (stopDrawing (startDrawing s (getNormalizedPoint b cx cy))).paths).isSome
        = true
    ∧ ∀ (q : List Char) (sz : ImageSize) (w : ℤ),
        buildFinalPrompt q sz true w
          = promptAfterAesthetic q sz ++ chars maskNote ++ structureInstruction w := by
  have hstart : startDrawing s (getNormalizedPoint b cx cy)
      = { s with isDrawing := true, currentPath := [p] } := by
    rw [hpt]
    rfl
  have hstop : (stopDrawing (startDrawing s (getNormalizedPoint b cx cy))).paths
      = [⟨[p], 5 / 100⟩] := by
    rw [hstart]
    unfold stopDrawing
    simp [hpaths]
  refine ⟨hstop, ?_, ?_, ?_⟩
  · rw [hstop]
    rw [exportMask_spec]
    have : maskWhiteSet nw nh [⟨[p], 5 / 100⟩] = ∅ := by
      ext z
      simp only [maskWhiteSet, Set.mem_setOf_eq, List.mem_singleton,
        Set.mem_empty_iff_false, iff_false, not_exists]
      rintro q ⟨rfl, hl, -⟩
      simp at hl
    simp [this]
  · rw [hstop, exportMask_spec]
    rfl
  · intro q sz w
    rw [buildFinalPrompt, promptAfterMask]
    simp

/-- Witness for the single-point stroke: clicking at `(1, 2)` over the sample
2:1 image in a 4x4 box, with no previous paths, emits an all-black raster. -/
theorem singlePointStroke_emitsMask_witness :
    ((⟨false, [], []⟩ : DrawState).paths = []
      ∧ getNormalizedPoint ⟨2, 1, 4, 4, 0, 0⟩ 1 2 = some ⟨1 / 4, 1 / 2⟩)
    ∧ exportMask 200 100
        (stopDrawing (startDrawing ⟨false, [], []⟩
          (getNormalizedPoint ⟨2, 1, 4, 4, 0, 0⟩ 1 2))).paths
        = some ⟨200, 100, ∅⟩ := by
  have hpt : getNormalizedPoint ⟨2, 1, 4, 4, 0, 0⟩ 1 2 = some ⟨1 / 4, 1 / 2⟩ := by
    unfold getNormalizedPoint renderRect
    norm_num
  refine ⟨⟨rfl, hpt⟩, ?_⟩
  exact (singlePointStroke_emitsMask 200 100 ⟨2, 1, 4, 4, 0, 0⟩ 1 2
    ⟨false, [], []⟩ ⟨1 / 4, 1 / 2⟩ rfl hpt).2.1

/- ### The generation orchestrator (claims C3, C7, C9) and history (C8) -/

/-- Replacing the last element of a non-empty snoc list. -/
theorem replaceLast_concat (l : List ImageSourceRec) (a b : ImageSourceRec) :
    replaceLast (l ++ [a]) b = l ++ [b] := by
  unfold replaceLast
  rw [if_pos (by simp)]
  simp

/-- Full characterization of an ultra (`4K`) run whose two remote calls both
succeed on their first attempt with committed image results. -/
theorem ultra_run_bothOk
    (st : AppState) (src : ImageSourceRec) (targetPrompt finalPrompt : List Char)
    (effW : ℤ) (now : ℕ) (sheet : Bool) (sb ge : String)
    (o : ℕ → Except String (List (List RespPart)))
    (resp1 resp2 : List (List RespPart))
    (hsrc : st.sourceImage = some src)
    (h0 : o 0 = Except.ok resp1) (h1 : o 1 = Except.ok resp2)
    (ht1 : resultCommitted (parseResponse resp1) = true)
    (ht2 : resultCommitted (parseResponse resp2) = true) :
    executeGenerationRun st true targetPrompt ImageSize.fourK finalPrompt effW
        now sheet sb ge o
      = ⟨{ st with
            appError := none
            currentGeneratedImage :=
              some (upscaledRecord (parseResponse resp2) targetPrompt now sheet)
            generatedImageHistory := st.generatedImageHistory
              ++ [upscaledRecord (parseResponse resp2) targetPrompt now sheet] },
          [⟨src.base64, src.mimeType, finalPrompt, ImageSize.oneK,
              jsTruthyS st.maskImage, effW⟩,
            ⟨(parseResponse resp1).base64.getD "",
              (parseResponse resp1).mimeType.getD "", finalPrompt,
              ImageSize.fourK, false, 100⟩],
          [],
          some (baseRecord (parseResponse resp1) targetPrompt finalPrompt now
            sheet)⟩ := by
  have hrun0 : runEditImage o 0 = ⟨1, [], Except.ok (parseResponse resp1)⟩ := by
    rw [runEditImage, h0]
  have hrun1 : runEditImage o 1 = ⟨1, [], Except.ok (parseResponse resp2)⟩ := by
    rw [runEditImage, h1]
  simp [executeGenerationRun, hsrc, hrun0, hrun1, ht1, ht2, replaceLast_concat,
    baseRecord]

/-- C3 (amended): for a requested `4K` (ultra) run where both remote calls
succeed without retry, exactly two remote calls occur; the FIRST requests the
`1K` (standard) tier — not the `2K` (high) tier; the second uses the first
call's output image as its input, at structure weight exactly 100 and tier
`4K`; and the final current record carries the second call's output image. -/
theorem ultraGeneration_callSequence
    (st : AppState) (src : ImageSourceRec) (targetPrompt finalPrompt : List Char)
    (effW : ℤ) (now : ℕ) (sheet : Bool) (sb ge : String)
    (o : ℕ → Except String (List (List RespPart)))
    (resp1 resp2 : List (List RespPart))
    (hsrc : st.sourceImage = some src)
    (h0 : o 0 = Except.ok resp1) (h1 : o 1 = Except.ok resp2)
    (ht1 : resultCommitted (parseResponse resp1) = true)
    (ht2 : resultCommitted (parseResponse resp2) = true) :
    (executeGenerationRun st true targetPrompt ImageSize.fourK finalPrompt effW
        now sheet sb ge o).remoteCalls
      = [⟨src.base64, src.mimeType, finalPrompt, ImageSize.oneK,
            jsTruthyS st.maskImage, effW⟩,
          ⟨(parseResponse resp1).base64.getD "",
            (parseResponse resp1).mimeType.getD "", finalPrompt,
            ImageSize.fourK, false, 100⟩]
    ∧ (executeGenerationRun st true targetPrompt ImageSize.fourK finalPrompt
        effW now sheet sb ge o).remoteCalls.length = 2
    ∧ (executeGenerationRun st true targetPrompt ImageSize.fourK finalPrompt
        effW now sheet sb ge o).state.currentGeneratedImage
      = some (upscaledRecord (parseResponse resp2) targetPrompt now sheet)
    ∧ (upscaledRecord (parseResponse resp2) targetPrompt now sheet).base64
      = (parseResponse resp2).base64.getD "" := by
  rw [ultra_run_bothOk st src targetPrompt finalPrompt effW now sheet sb ge o
    resp1 resp2 hsrc h0 h1 ht1 ht2]
  exact ⟨rfl, rfl, rfl, rfl⟩

/-- Witness for the ultra call sequence, on the concrete sample run. -/
theorem ultraGeneration_callSequence_witness :
    (sampleState.sourceImage = some sampleSrc
      ∧ sampleOracleOk 0 = Except.ok sampleResp1
      ∧ sampleOracleOk 1 = Except.ok sampleResp2
      ∧ resultCommitted (parseResponse sampleResp1) = true
      ∧ resultCommitted (parseResponse sampleResp2) = true)
    ∧ (executeGenerationRun sampleState true [] ImageSize.fourK (chars "p") 50
        7 false "busy" "gen" sampleOracleOk).remoteCalls.length = 2 := by
  refine ⟨⟨rfl, rfl, rfl, by decide, by decide⟩, ?_⟩
  exact (ultraGeneration_callSequence sampleState sampleSrc [] (chars "p") 50 7
    false "busy" "gen" sampleOracleOk sampleResp1 sampleResp2 rfl rfl rfl
    (by decide) (by decide)).2.1

/-- C3 counterexample: in the concrete sample ultra run the first remote call
requests the `1K` (standard) tier, which is not the `2K` (high) tier the claim
names. -/
theorem ultraGeneration_firstCall_not2K :
    ((executeGenerationRun sampleState true [] ImageSize.fourK (chars "p") 50
        7 false "busy" "gen" sampleOracleOk).remoteCalls.map GenCall.size)
      = [ImageSize.oneK, ImageSize.fourK]
    ∧ ImageSize.oneK ≠ ImageSize.twoK := by
  refine ⟨by decide, by decide⟩

/-- C7: when the first-tier call of an ultra run succeeds and commits but the
upscale invocation fails, the base-tier record stays committed: history ends
with it, the current pointer holds it, the only notice is the informational
upscale-failure toast, and no error state is set. -/
theorem upscaleFailure_keepsBase
    (st : AppState) (src : ImageSourceRec) (targetPrompt finalPrompt : List Char)
    (effW : ℤ) (now : ℕ) (sheet : Bool) (sb ge : String)
    (o : ℕ → Except String (List (List RespPart)))
    (resp1 : List (List RespPart)) (e : String)
    (hsrc : st.sourceImage = some src)
    (h0 : o 0 = Except.ok resp1)
    (ht1 : resultCommitted (parseResponse resp1) = true)
    (hupfail : (runEditImage o 1).result = Except.error e) :
    (executeGenerationRun st true targetPrompt ImageSize.fourK finalPrompt effW
        now sheet sb ge o).state.appError = none
    ∧ (executeGenerationRun st true targetPrompt ImageSize.fourK finalPrompt
        effW now sheet sb ge o).state.generatedImageHistory
      = st.generatedImageHistory
          ++ [baseRecord (parseResponse resp1) targetPrompt finalPrompt now sheet]
    ∧ (executeGenerationRun st true targetPrompt ImageSize.fourK finalPrompt
        effW now sheet sb ge o).state.currentGeneratedImage
      = some (baseRecord (parseResponse resp1) targetPrompt finalPrompt now sheet)
    ∧ (executeGenerationRun st true targetPrompt ImageSize.fourK finalPrompt
        effW now sheet sb ge o).toasts
      = [(upscaleFailNotice, ToastKind.info)] := by
  have hrun0 : runEditImage o 0 = ⟨1, [], Except.ok (parseResponse resp1)⟩ := by
    rw [runEditImage, h0]
  refine ⟨?_, ?_, ?_, ?_⟩ <;>
    simp [executeGenerationRun, hsrc, hrun0, ht1, hupfail]

/-- Witness for C7: the sample run whose upscale attempt throws `"boom"`. -/
theorem upscaleFailure_keepsBase_witness :
    (sampleState.sourceImage = some sampleSrc
      ∧ sampleOracleUpFail 0 = Except.ok sampleResp1
      ∧ resultCommitted (parseResponse sampleResp1) = true
      ∧ (runEditImage sampleOracleUpFail 1).result = Except.error "boom")
    ∧ (executeGenerationRun sampleState true [] ImageSize.fourK (chars "p") 50
        7 false "busy" "gen" sampleOracleUpFail).state.appError = none
    ∧ (executeGenerationRun sampleState true [] ImageSize.fourK (chars "p") 50
        7 false "busy" "gen" sampleOracleUpFail).toasts
      = [(upscaleFailNotice, ToastKind.info)] := by
  have hfail : (runEditImage sampleOracleUpFail 1).result
      = Except.error "boom" := by
    rw [show runEditImage sampleOracleUpFail 1
        = ⟨1, [], Except.error (classifyFinalError "boom")⟩ from by
      rw [runEditImage]
      simp [sampleOracleUpFail]
      decide]
    rw [show classifyFinalError "boom" = "boom" from by decide]
  have h := upscaleFailure_keepsBase sampleState sampleSrc [] (chars "p") 50 7
    false "busy" "gen" sampleOracleUpFail sampleResp1 "boom" rfl rfl
    (by decide) hfail
  exact ⟨⟨rfl, rfl, by decide, hfail⟩, h.1, h.2.2.2⟩

/-- C8 (amended): when at least two records exist, the revert handler removes
exactly the last record (the remaining records are an unchanged prefix) and
points `current` at the new last record, and the call-site guard is then off;
the guard `isRevertDisabled` is exactly the test `length < 2` — but it is the
only protection: the handler itself pops unconditionally. -/
theorem onRevert_dropsLast (h : List ImageSourceRec) (hlen : 2 ≤ h.length) :
    (onRevert h).1 = h.dropLast
    ∧ (∃ l, h = (onRevert h).1 ++ [l])
    ∧ (onRevert h).2 = (onRevert h).1.getLast?
    ∧ (onRevert h).1 <+: h
    ∧ isRevertDisabled h = false
    ∧ ∀ h' : List ImageSourceRec,
        isRevertDisabled h' = decide (h'.length < 2) := by
  have hne : h ≠ [] := by
    intro hnil
    rw [hnil] at hlen
    simp at hlen
  refine ⟨rfl, ?_, rfl, ?_, ?_, ?_⟩
  · exact ⟨h.getLast hne, (List.dropLast_append_getLast hne).symm⟩
  · exact ⟨[h.getLast hne], List.dropLast_append_getLast hne⟩
  · simp only [isRevertDisabled, decide_eq_false_iff_not]
    omega
  · intro h'
    rfl

/-- Witness for the revert behavior on a two-record history. -/
theorem onRevert_dropsLast_witness :
    2 ≤ ([sampleRec, sampleRec2] : List ImageSourceRec).length
    ∧ (onRevert [sampleRec, sampleRec2]).1 = [sampleRec]
    ∧ (onRevert [sampleRec, sampleRec2]).2 = some sampleRec := by
  refine ⟨by decide, ?_, ?_⟩
  · rw [(onRevert_dropsLast [sampleRec, sampleRec2] (by decide)).1]
    rfl
  · rw [(onRevert_dropsLast [sampleRec, sampleRec2] (by decide)).2.2.1]
    rfl

/-- C8 counterexample: invoked on a one-record history the handler is NOT a
no-op — it empties the history and clears `current`; only the (unused)
disabled flag marks the case. -/
theorem onRevert_len1_not_noop :
    onRevert [sampleRec] = ([], none)
    ∧ (onRevert [sampleRec]).1 ≠ [sampleRec]
    ∧ isRevertDisabled [sampleRec] = true := by
  refine ⟨by decide, by decide, by decide⟩

/-- C9 (amended): branching a past record as the new source and selecting a
past record as current leave the history sequence unchanged, and a successful
run appends; but history is NOT only truncated by revert: `handleDeleteResult`
drops the last record, resetting the generated state (on source replacement)
clears it entirely, and the successful ultra upscale pass replaces the last
record in place (the final history appends only the upscaled record). -/
theorem history_mutations
    (st : AppState) (img : ImageSourceRec) (src : ImageSourceRec)
    (targetPrompt finalPrompt : List Char) (effW : ℤ) (now : ℕ) (sheet : Bool)
    (sb ge : String) (o : ℕ → Except String (List (List RespPart)))
    (resp1 resp2 : List (List RespPart))
    (hsrc : st.sourceImage = some src)
    (h0 : o 0 = Except.ok resp1) (h1 : o 1 = Except.ok resp2)
    (ht1 : resultCommitted (parseResponse resp1) = true)
    (ht2 : resultCommitted (parseResponse resp2) = true) :
    (handleBranchFromHistory st img).generatedImageHistory
        = st.generatedImageHistory
    ∧ (selectFromHistory st img).generatedImageHistory
        = st.generatedImageHistory
    ∧ (handleDeleteResult st).generatedImageHistory
        = st.generatedImageHistory.dropLast
    ∧ (resetGeneratedState st).generatedImageHistory = []
    ∧ (executeGenerationRun st true targetPrompt ImageSize.fourK finalPrompt
        effW now sheet sb ge o).state.generatedImageHistory
      = st.generatedImageHistory
          ++ [upscaledRecord (parseResponse resp2) targetPrompt now sheet] := by
  refine ⟨rfl, rfl, rfl, rfl, ?_⟩
  rw [ultra_run_bothOk st src targetPrompt finalPrompt effW now sheet sb ge o
    resp1 resp2 hsrc h0 h1 ht1 ht2]

/-- Witness for the history-mutation facts, on the concrete sample run. -/
theorem history_mutations_witness :
    (sampleState.sourceImage = some sampleSrc
      ∧ resultCommitted (parseResponse sampleResp1) = true
      ∧ resultCommitted (parseResponse sampleResp2) = true)
    ∧ (handleDeleteResult sampleState).generatedImageHistory = []
    ∧ (executeGenerationRun sampleState true [] ImageSize.fourK (chars "p") 50
        7 false "busy" "gen" sampleOracleOk).state.generatedImageHistory
      = [upscaledRecord (parseResponse sampleResp2) [] 7 false] := by
  have h := history_mutations sampleState sampleRec sampleSrc [] (chars "p")
    50 7 false "busy" "gen" sampleOracleOk sampleResp1 sampleResp2 rfl rfl rfl
    (by decide) (by decide)
  exact ⟨⟨rfl, by decide, by decide⟩, h.2.2.1, h.2.2.2.2⟩

/-- C9 counterexample: deleting the result record truncates the history — the
old history is not a prefix of the new one, so the operation neither appends
nor leaves history unchanged. -/
theorem handleDeleteResult_truncates :
    (handleDeleteResult
        ⟨some sampleSrc, some sampleRec2, [sampleRec, sampleRec2], none,
          none⟩).generatedImageHistory
      = [sampleRec]
    ∧ ¬ (([sampleRec, sampleRec2] : List ImageSourceRec) <+: [sampleRec]) := by
  refine ⟨rfl, ?_⟩
  rintro ⟨t, ht⟩
  have hlen := congrArg List.length ht
  simp at hlen
